import Mathlib

/-!
Shallow embedding of src/etl_exchange_rates.py.

The script reads two CSV feeds with pandas, extracts rates for a fixed list
of target currencies, computes per-currency historical means, and renders an
HTML table.  We embed the already-parsed tabular input as a header (list of
column names) plus data rows (lists of cells).  A pandas cell is either a
missing value (NaN, produced by pandas for empty fields and for its default
na sentinels), a numeric value (numeric CSV columns), or a left-over string
(object columns).  Exchange rates are modelled as rational numbers: the
Python floats in the script are IEEE doubles, and every branch the script
takes is decided by order or equality comparisons that the rationals model
exactly on the decimal inputs in scope.  Fallible functions return Except.
Print-based logging in the source is not modelled; only the data flow and
the raised errors are.
-/

/-- The fixed target currency list, line 15 of the source:
TARGET_CURRENCIES = [USD, SEK, GBP, JPY]. -/
def TARGET_CURRENCIES : List String := ["USD", "SEK", "GBP", "JPY"]

/-- One raw cell of a pandas DataFrame read from CSV: a missing value (NaN),
a numeric value, or a string left in an object column. -/
inductive Cell where
  | na : Cell
  | num (q : ℚ) : Cell
  | str (s : String) : Cell
deriving DecidableEq

/-- A parsed CSV table: header column names plus data rows.  This is the
DataFrame produced by pd.read_csv at lines 42 and 135 of the source; rows
shorter than the header read as missing values, as pandas fills NaN. -/
structure Table where
  cols : List String
  rows : List (List Cell)

/-- Column lookup by header name, the df[currency] / row[currency] indexing
of the source.  A name absent from the header yields a missing value; the
source always guards indexing with a membership test first. -/
def getCell (t : Table) (row : List Cell) (c : String) : Cell :=
  match List.findIdx? (fun x => x == c) t.cols with
  | some i => row.getD i Cell.na
  | none => Cell.na

/-- Numeric value of a digit character. -/
def digitVal (ch : Char) : Nat := ch.toNat - 48

/-- Reads a nonempty all-digit character list as a natural number; any
non-digit character makes the whole read fail.  (The empty list yields 0 and
is ruled out by the callers where Python requires a digit.) -/
def natOfDigits (cs : List Char) : Option Nat :=
  cs.foldl
    (fun acc ch =>
      match acc with
      | none => none
      | some n => if ch.isDigit then some (n * 10 + digitVal ch) else none)
    (some 0)

/-- Mantissa part of a Python float literal: digits, digits.digits, .digits
or digits. — at least one digit overall. -/
def parseMantissa (cs : List Char) : Option ℚ :=
  match List.findIdx? (fun ch => ch == '.') cs with
  | none =>
    if cs.isEmpty then none else (natOfDigits cs).map (fun n => (n : ℚ))
  | some i =>
    let intPart := cs.take i
    let fracPart := cs.drop (i + 1)
    if intPart.isEmpty && fracPart.isEmpty then none
    else
      match natOfDigits intPart, natOfDigits fracPart with
      | some a, some b => some ((a : ℚ) + (b : ℚ) / (10 : ℚ) ^ fracPart.length)
      | _, _ => none

/-- Optionally signed integer, for the exponent of a float literal. -/
def parseSignedInt (cs : List Char) : Option ℤ :=
  match cs with
  | '+' :: rest =>
    if rest.isEmpty then none else (natOfDigits rest).map (fun n => (n : ℤ))
  | '-' :: rest =>
    if rest.isEmpty then none else (natOfDigits rest).map (fun n => -(n : ℤ))
  | _ =>
    if cs.isEmpty then none else (natOfDigits cs).map (fun n => (n : ℤ))

/-- Unsigned float literal: mantissa with optional e/E exponent. -/
def parseUnsigned (cs : List Char) : Option ℚ :=
  match List.findIdx? (fun ch => ch == 'e' || ch == 'E') cs with
  | none => parseMantissa cs
  | some i =>
    match parseMantissa (cs.take i), parseSignedInt (cs.drop (i + 1)) with
    | some m, some e => some (m * (10 : ℚ) ^ e)
    | _, _ => none

/-- Drops leading and trailing whitespace from a character list. -/
def trimChars (cs : List Char) : List Char :=
  ((cs.dropWhile Char.isWhitespace).reverse.dropWhile Char.isWhitespace).reverse

/-- The Python float(string) conversion used at lines 68 and 171 of the
source, on the decimal literals it accepts: surrounding whitespace ignored,
optional sign, decimal mantissa, optional exponent.  Returns none exactly
when Python raises ValueError.  (The inf/nan spellings Python also accepts
are not modelled: pandas maps the nan-like spellings to missing values
before the script ever sees them, via its default na filter.) -/
def pyFloatStr (s : String) : Option ℚ :=
  match trimChars s.data with
  | '+' :: rest => parseUnsigned rest
  | '-' :: rest => (parseUnsigned rest).map (fun q => -q)
  | cs => parseUnsigned cs

/-- float(cell) for a raw cell.  A numeric cell passes through; a string
cell is parsed; for a missing cell the source never reaches this call (the
isna guard at lines 62 and 166 comes first), and we model it as a failed
conversion. -/
def pyFloat : Cell → Option ℚ
  | Cell.na => none
  | Cell.num q => some q
  | Cell.str s => pyFloatStr s

/-- The null-or-blank test at lines 62 and 166 of the source:
pd.isna(v) or v == empty-string or v == the N/A sentinel. -/
def cellIsBlank : Cell → Bool
  | Cell.na => true
  | Cell.num _ => false
  | Cell.str s => s == "" || s == "N/A"

/-- The str(value) coercion applied to the date cell at line 178.  String
cells pass through (the only case arising for a Date column read from CSV);
a missing cell prints as nan; the rendering of a numeric cell stands in for
the Python repr, which no claim depends on. -/
def cellToStr : Cell → String
  | Cell.na => "nan"
  | Cell.num q => toString q
  | Cell.str s => s

/-- Closed error taxonomy of the script.  The source raises ValueError with
distinct messages for malformed input (empty table, missing required
column) and for no usable data (empty output after filtering), and the
aggregator raises ValueError for structurally insufficient input; the
FileNotFoundError branches guard the filesystem and are outside the
embedded table-to-table core. -/
inductive EtlError where
  | malformedInput (msg : String) : EtlError
  | noUsableData (msg : String) : EtlError
  | invalidInput (msg : String) : EtlError
deriving DecidableEq

/-- The first-row cell consulted by the daily extractor:
df[currency].iloc[0] at line 59. -/
def firstRowCell (t : Table) (c : String) : Cell :=
  getCell t (t.rows.headD []) c

/-- Loop body of parse_daily_rates, lines 54 to 74 of the source, for one
target currency: missing column - continue; null-or-blank cell - record
invalid and continue; float conversion failure - record invalid and
continue; otherwise insert the parsed value into the map, non-positive
values included (the check at line 69 only prints a warning). -/
def dailyStep (t : Table) (acc : List (String × ℚ)) (c : String) :
    List (String × ℚ) :=
  if c ∈ t.cols then
    if cellIsBlank (firstRowCell t c) then acc
    else
      match pyFloat (firstRowCell t c) with
      | some q => acc ++ [(c, q)]
      | none => acc
  else acc

/-- The contribution of one currency to the daily map in isolation: the
empty list, or the single entry the loop body appends. -/
def dailyEntry (t : Table) (c : String) : List (String × ℚ) :=
  if c ∈ t.cols then
    if cellIsBlank (firstRowCell t c) then []
    else
      match pyFloat (firstRowCell t c) with
      | some q => [(c, q)]
      | none => []
  else []

/-- The daily rate map built by the currency loop of parse_daily_rates
(insertion order = configured currency order, each currency visited once). -/
def dailyRatesOf (t : Table) : List (String × ℚ) :=
  TARGET_CURRENCIES.foldl (dailyStep t) []

/-- parse_daily_rates, lines 18 to 91 of the source, on an already-parsed
table: reject a table with zero data rows (line 45), build the map over the
target currencies from the first row, and reject an empty result map
(line 84); otherwise return the map. -/
def parse_daily_rates (t : Table) : Except EtlError (List (String × ℚ)) :=
  if t.rows.length = 0 then
    Except.error (EtlError.malformedInput "CSV file is empty - no data rows found")
  else if dailyRatesOf t = [] then
    Except.error (EtlError.noUsableData "No valid rates found for any target currencies")
  else Except.ok (dailyRatesOf t)

/-- One historical observation: date, currency, rate — the record appended
at line 177 of the source. -/
structure Obs where
  date : String
  currency : String
  rate : ℚ
deriving DecidableEq

/-- Row body of the historical extraction loop, lines 162 to 184 of the
source: skip a null-or-blank cell, skip a failed float conversion, skip a
non-positive rate (line 174), otherwise produce the observation with the
date of the row coerced to text. -/
def rowObs (t : Table) (c : String) (row : List Cell) : Option Obs :=
  if cellIsBlank (getCell t row c) then none
  else
    match pyFloat (getCell t row c) with
    | some q =>
      if q ≤ 0 then none
      else some ⟨cellToStr (getCell t row "Date"), c, q⟩
    | none => none

/-- Accumulating row loop of the historical extractor: append the
observation of each usable row in input row order. -/
def histRowStep (t : Table) (c : String) (acc : List Obs) (row : List Cell) :
    List Obs :=
  match rowObs t c row with
  | some o => acc ++ [o]
  | none => acc

/-- Currency loop body of parse_historical_rates, lines 152 to 186: missing
column - continue; otherwise iterate every row in order. -/
def histStep (t : Table) (acc : List Obs) (c : String) : List Obs :=
  if c ∈ t.cols then t.rows.foldl (histRowStep t c) acc else acc

/-- The flat observation list built by the historical extractor: currency
loop outermost over the configured order, row loop innermost. -/
def histData (t : Table) : List Obs :=
  TARGET_CURRENCIES.foldl (histStep t) []

/-- The observations one currency contributes: nothing when its column is
missing, else the usable rows in input row order. -/
def histObsFor (t : Table) (c : String) : List Obs :=
  if c ∈ t.cols then t.rows.filterMap (rowObs t c) else []

/-- parse_historical_rates, lines 111 to 206 of the source, on an
already-parsed table: reject zero data rows (line 138), require the Date
column (line 142), build the observation list, and reject an empty result
(line 193); otherwise return the observations. -/
def parse_historical_rates (t : Table) : Except EtlError (List Obs) :=
  if t.rows.length = 0 then
    Except.error (EtlError.malformedInput "CSV file is empty - no data rows found")
  else if "Date" ∈ t.cols then
    if histData t = [] then
      Except.error (EtlError.noUsableData "No valid historical rates found for any target currencies")
    else Except.ok (histData t)
  else Except.error (EtlError.malformedInput "CSV file missing required Date column")

/-- The rates recorded for one currency, in sequence order: the groupby
partition of df.groupby(currency)[rate] at line 249. -/
def ratesFor (obs : List Obs) (c : String) : List ℚ :=
  (obs.filter (fun o => o.currency == c)).map (fun o => o.rate)

/-- The currencies occurring in the observation list, first occurrence
order, each once: the key set of the groupby result.  (pandas sorts the
group keys; no consumer of the mean map observes key order, dictionary
lookup being key-based, so the embedding keeps first-occurrence order.) -/
def meanKeys (obs : List Obs) : List String :=
  (obs.map (fun o => o.currency)).dedup

/-- Arithmetic mean of the rates of one currency: summation then division
by the count, the .mean() of line 249. -/
def meanVal (obs : List Obs) (c : String) : ℚ :=
  (ratesFor obs c).sum / ((ratesFor obs c).length : ℚ)

/-- The mean rate map df.groupby(currency)[rate].mean().to_dict() of
line 249: one entry per currency occurring in the observations. -/
def meanMap (obs : List Obs) : List (String × ℚ) :=
  (meanKeys obs).map (fun c => (c, meanVal obs c))

/-- calculate_mean_rates, lines 226 to 266 of the source, on the typed
observation list: reject an empty input (line 242).  The second defensive
check of the source, missing currency or rate columns at line 245, cannot
fire on the typed record: a DataFrame built from the nonempty record list
of parse_historical_rates always carries both columns. -/
def calculate_mean_rates (obs : List Obs) : Except EtlError (List (String × ℚ)) :=
  if obs = [] then
    Except.error (EtlError.invalidInput "Cannot calculate means: DataFrame is empty")
  else Except.ok (meanMap obs)

/-- Dictionary lookup daily_rates.get(currency) / mean_rates.get(currency)
on the association-list model of a Python dict (first match wins; the maps
the script builds bind each key once). -/
def lookupRate : List (String × ℚ) → String → Option ℚ
  | [], _ => none
  | p :: rest, c => if p.1 = c then some p.2 else lookupRate rest c

/-- Character of a decimal digit. -/
def digitChar (n : Nat) : Char := Char.ofNat (48 + n % 10)

/-- Decimal digits of a natural number, most significant first, fuel-based
recursion on the number of digits. -/
def natDigitsAux : Nat → Nat → List Char
  | 0, _ => []
  | fuel + 1, n =>
    if n < 10 then [digitChar n] else natDigitsAux fuel (n / 10) ++ [digitChar n]

/-- Decimal digit string of a natural number. -/
def natDigits (n : Nat) : List Char := natDigitsAux (n + 1) n

/-- Round t / d (with d positive) to the nearest integer, ties to even —
the rounding the Python fixed-point format applies to the value being
printed.  Division and remainder on ℤ here are Euclidean, so for positive d
the quotient is the floor and the remainder lies in [0, d). -/
def roundHalfEvenScaled (t : ℤ) (d : ℕ) : ℤ :=
  let f : ℤ := t / (d : ℤ)
  let r : ℤ := t % (d : ℤ)
  if 2 * r < (d : ℤ) then f
  else if (d : ℤ) < 2 * r then f + 1
  else if f % 2 = 0 then f else f + 1

/-- Character list of a rate formatted to four decimal places: optional
minus sign, integer digits, point, exactly four fraction digits. -/
def fmt4Core (n : ℤ) : List Char :=
  (if n < 0 then ['-'] else []) ++
    natDigits (n.natAbs / 10000) ++
      '.' :: [digitChar (n.natAbs % 10000 / 1000), digitChar (n.natAbs % 10000 / 100),
        digitChar (n.natAbs % 10000 / 10), digitChar (n.natAbs % 10000)]

/-- The four-decimal fixed-point format of the f-strings at lines 292 and
293 of the source, on the exact rational value. -/
def fmt4 (q : ℚ) : String :=
  String.mk (fmt4Core (roundHalfEvenScaled (q.num * 10000) q.den))

/-- One value cell of the report table, lines 292 and 293 of the source:
the Python conditional expression (format if value else N/A) renders N/A
both when the currency is absent from the map (get returned None) and when
its rate is the falsy float 0.0. -/
def renderCell : Option ℚ → String
  | some q => if q = 0 then "N/A" else fmt4 q
  | none => "N/A"

/-- One row of the report table, lines 290 to 294 of the source. -/
structure ReportRow where
  code : String
  rate : String
  histRate : String
deriving DecidableEq

/-- The row built for one currency at lines 286 to 294 of the source. -/
def mkRow (d m : List (String × ℚ)) (c : String) : ReportRow :=
  { code := c
    rate := renderCell (lookupRate d c)
    histRate := renderCell (lookupRate m c) }

/-- The data rows of the table create_html_table embeds, lines 283 to 296
of the source: one row per configured target currency, in configured
order.  The surrounding HTML boilerplate carries no data and is not
modelled. -/
def create_html_table (d m : List (String × ℚ)) : List ReportRow :=
  TARGET_CURRENCIES.map (mkRow d m)

/-- The daily table of Example 2 of the spec: header USD,SEK,GBP,JPY with
the single data row 1.0850, N/A, 0.8600, abc.  pandas leaves the numeric
columns as floats and the abc column as a string; the N/A sentinel is kept
as text here to exercise the explicit sentinel test of line 62. -/
def exampleDaily : Table :=
  ⟨["USD", "SEK", "GBP", "JPY"],
   [[Cell.num (217 / 200), Cell.str "N/A", Cell.num (43 / 50), Cell.str "abc"]]⟩

/-- A daily table whose USD cell parses to exactly zero. -/
def dtZero : Table :=
  ⟨["USD", "SEK", "GBP", "JPY"], [[Cell.num 0, Cell.na, Cell.na, Cell.na]]⟩

/-- A two-row historical table with USD rates 2 and 3. -/
def histPair : Table :=
  ⟨["Date", "USD"],
   [[Cell.str "2024-01-01", Cell.num 2], [Cell.str "2024-01-02", Cell.num 3]]⟩

/-- A historical table with a non-positive SEK rate on the first date and a
positive one on the second, as in Example 4 of the spec. -/
def histNeg : Table :=
  ⟨["Date", "SEK"],
   [[Cell.str "2024-01-01", Cell.num (-2)], [Cell.str "2024-01-02", Cell.num 2]]⟩

/-- A non-empty historical table without a Date column. -/
def noDate : Table := ⟨["USD"], [[Cell.num 2]]⟩

/-- A daily table with one data row, no SEK column, a blank GBP cell and a
non-numeric JPY cell: only USD survives. -/
def partialDaily : Table :=
  ⟨["USD", "GBP", "JPY"], [[Cell.num 2, Cell.na, Cell.str "abc"]]⟩

/-! ## Helper lemmas about the association-list lookup -/

/-- Lookup in an appended list when the key is found on the left. -/
theorem lookupRate_append_left {a : List (String × ℚ)} (b : List (String × ℚ))
    {c : String} {v : ℚ} (h : lookupRate a c = some v) :
    lookupRate (a ++ b) c = some v := by
  induction a with
  | nil => simp [lookupRate] at h
  | cons p rest ih =>
    by_cases hp : p.1 = c
    · simp only [lookupRate, if_pos hp] at h
      simp only [List.cons_append, lookupRate, if_pos hp, h]
    · simp only [lookupRate, if_neg hp] at h
      simp only [List.cons_append, lookupRate, if_neg hp]
      exact ih h

/-- Lookup in an appended list when the key is absent on the left. -/
theorem lookupRate_append_right {a : List (String × ℚ)} (b : List (String × ℚ))
    {c : String} (h : lookupRate a c = none) :
    lookupRate (a ++ b) c = lookupRate b c := by
  induction a with
  | nil => simp
  | cons p rest ih =>
    by_cases hp : p.1 = c
    · simp only [lookupRate, if_pos hp] at h
      exact absurd h (by simp)
    · simp only [lookupRate, if_neg hp] at h
      simp only [List.cons_append, lookupRate, if_neg hp]
      exact ih h

/-- Lookup misses when no entry carries the key. -/
theorem lookupRate_eq_none_of_keys {a : List (String × ℚ)} {c : String}
    (h : ∀ p ∈ a, p.1 ≠ c) : lookupRate a c = none := by
  induction a with
  | nil => rfl
  | cons p rest ih =>
    simp only [lookupRate, if_neg (h p (List.mem_cons_self p rest))]
    exact ih (fun p hp => h p (List.mem_cons_of_mem _ hp))

/-- Lookup in the graph of a function over a key list, key present. -/
theorem lookupRate_graph {keys : List String} (f : String → ℚ) {c : String}
    (h : c ∈ keys) :
    lookupRate (keys.map (fun k => (k, f k))) c = some (f c) := by
  induction keys with
  | nil => simp at h
  | cons k ks ih =>
    by_cases hk : k = c
    · subst hk; simp [lookupRate]
    · rcases List.mem_cons.mp h with rfl | hmem
      · exact absurd rfl hk
      · simp only [List.map_cons, lookupRate, if_neg hk]
        exact ih hmem

/-- Lookup in the graph of a function over a key list, key absent. -/
theorem lookupRate_graph_none {keys : List String} (f : String → ℚ) {c : String}
    (h : c ∉ keys) :
    lookupRate (keys.map (fun k => (k, f k))) c = none := by
  apply lookupRate_eq_none_of_keys
  intro p hp
  obtain ⟨k, hk, rfl⟩ := List.mem_map.mp hp
  intro hc
  exact h (hc ▸ hk)

/-! ## Normal forms of the extraction folds -/

/-- A left fold whose step only appends list segments is the flat map of
its per-element segments. -/
theorem foldl_ext {α β : Type} (step : List β → α → List β) (e : α → List β)
    (hstep : ∀ acc x, step acc x = acc ++ e x) :
    ∀ (l : List α) (acc : List β), l.foldl step acc = acc ++ l.flatMap e := by
  intro l
  induction l with
  | nil => intro acc; simp
  | cons x xs ih =>
    intro acc
    simp only [List.foldl_cons, hstep, List.flatMap_cons, ih, List.append_assoc]

/-- The daily loop body appends exactly the contribution of its currency. -/
theorem dailyStep_eq (t : Table) (acc : List (String × ℚ)) (c : String) :
    dailyStep t acc c = acc ++ dailyEntry t c := by
  unfold dailyStep dailyEntry
  split
  · split
    · simp
    · split <;> simp
  · simp

/-- The daily rate map is the concatenation of the per-currency
contributions, in configured currency order. -/
theorem dailyRatesOf_flatMap (t : Table) :
    dailyRatesOf t = TARGET_CURRENCIES.flatMap (dailyEntry t) := by
  have h := foldl_ext (dailyStep t) (dailyEntry t) (dailyStep_eq t)
    TARGET_CURRENCIES []
  simpa [dailyRatesOf] using h

/-- Every entry a currency contributes carries that currency as key. -/
theorem dailyEntry_key (t : Table) (c : String) :
    ∀ p ∈ dailyEntry t c, p.1 = c := by
  unfold dailyEntry
  split
  · split
    · simp
    · split
      · intro p hp
        rw [List.mem_singleton.mp hp]
      · simp
  · simp

/-- A currency with a missing column, a null-or-blank first-row cell, or a
first-row cell that fails the float conversion contributes nothing to the
daily map. -/
theorem dailyEntry_eq_nil (t : Table) (c : String)
    (h : c ∉ t.cols ∨ cellIsBlank (firstRowCell t c) = true ∨
      pyFloat (firstRowCell t c) = none) :
    dailyEntry t c = [] := by
  unfold dailyEntry
  rcases h with h | h | h
  · simp [h]
  · simp [h]
  · simp [h]

/-- A currency whose column is present and whose first-row cell is neither
blank nor unparsable contributes exactly its parsed entry, whatever the
sign of the value. -/
theorem dailyEntry_eq_single (t : Table) (c : String) (q : ℚ)
    (hcol : c ∈ t.cols) (hb : cellIsBlank (firstRowCell t c) = false)
    (hp : pyFloat (firstRowCell t c) = some q) :
    dailyEntry t c = [(c, q)] := by
  simp [dailyEntry, hcol, hb, hp]

/-- Lookup in a concatenation of keyed segments reduces to lookup in the
segment of the key, provided the segment keys are distinct. -/
theorem lookupRate_flatMap (e : String → List (String × ℚ))
    (hkey : ∀ x, ∀ p ∈ e x, p.1 = x) :
    ∀ (l : List String), l.Nodup → ∀ c ∈ l,
      lookupRate (l.flatMap e) c = lookupRate (e c) c := by
  intro l
  induction l with
  | nil => intro _ c hc; simp at hc
  | cons x xs ih =>
    intro hnd c hc
    rw [List.flatMap_cons]
    rcases List.mem_cons.mp hc with rfl | hmem
    · cases hv : lookupRate (e c) c with
      | some v => exact lookupRate_append_left _ hv
      | none =>
        rw [lookupRate_append_right _ hv]
        apply lookupRate_eq_none_of_keys
        intro p hp hpc
        obtain ⟨y, hy, hpy⟩ := List.mem_flatMap.mp hp
        have hyx : y = c := by rw [← hkey y p hpy, hpc]
        exact (List.nodup_cons.mp hnd).1 (hyx ▸ hy)
    · have hx : x ≠ c := by
        rintro rfl
        exact (List.nodup_cons.mp hnd).1 hmem
      rw [lookupRate_append_right]
      · exact ih (List.nodup_cons.mp hnd).2 c hmem
      · apply lookupRate_eq_none_of_keys
        intro p hp
        rw [hkey x p hp]
        exact hx

/-- The historical row loop appends the usable rows in input row order. -/
theorem histRow_foldl (t : Table) (c : String) :
    ∀ (rows : List (List Cell)) (acc : List Obs),
      rows.foldl (histRowStep t c) acc = acc ++ rows.filterMap (rowObs t c) := by
  intro rows
  induction rows with
  | nil => intro acc; simp
  | cons r rs ih =>
    intro acc
    cases h : rowObs t c r with
    | none => simp [histRowStep, h, ih, List.filterMap_cons]
    | some o => simp [histRowStep, h, ih, List.filterMap_cons, List.append_assoc]

/-- The historical currency loop body appends the contribution of its
currency. -/
theorem histStep_eq (t : Table) (acc : List Obs) (c : String) :
    histStep t acc c = acc ++ histObsFor t c := by
  unfold histStep histObsFor
  split
  · exact histRow_foldl t c t.rows acc
  · simp

/-- The historical observation list is the concatenation of the
per-currency contributions, in configured currency order. -/
theorem histData_flatMap (t : Table) :
    histData t = TARGET_CURRENCIES.flatMap (histObsFor t) := by
  have h := foldl_ext (histStep t) (histObsFor t) (histStep_eq t)
    TARGET_CURRENCIES []
  simpa [histData] using h

/-- A produced observation carries its loop currency and a strictly
positive rate: the non-positive branch at line 174 filters everything
else out. -/
theorem rowObs_spec (t : Table) (c : String) (row : List Cell) (o : Obs)
    (h : rowObs t c row = some o) : o.currency = c ∧ 0 < o.rate := by
  unfold rowObs at h
  split at h
  · exact absurd h (by simp)
  · split at h
    · split at h
      · exact absurd h (by simp)
      · rename_i q hq hle
        cases h
        exact ⟨rfl, lt_of_not_le hle⟩
    · exact absurd h (by simp)

/-- A cell that parses to a non-positive number produces no historical
observation. -/
theorem rowObs_nonpos (t : Table) (c : String) (row : List Cell) (q : ℚ)
    (hp : pyFloat (getCell t row c) = some q) (hq : q ≤ 0) :
    rowObs t c row = none := by
  unfold rowObs
  split
  · rfl
  · rw [hp]
    simp [hq]

/-- Every observation the historical extractor builds has a strictly
positive rate. -/
theorem histData_pos (t : Table) : ∀ o ∈ histData t, 0 < o.rate := by
  intro o ho
  rw [histData_flatMap] at ho
  obtain ⟨c, _, hc⟩ := List.mem_flatMap.mp ho
  unfold histObsFor at hc
  split at hc
  · obtain ⟨row, _, hrow⟩ := List.mem_filterMap.mp hc
    exact (rowObs_spec t c row o hrow).2
  · simp at hc

/-- Every observation of one currency segment carries that currency. -/
theorem histObsFor_currency (t : Table) (c : String) :
    ∀ o ∈ histObsFor t c, o.currency = c := by
  intro o ho
  unfold histObsFor at ho
  split at ho
  · obtain ⟨row, _, hrow⟩ := List.mem_filterMap.mp ho
    exact (rowObs_spec t c row o hrow).1
  · simp at ho

/-- Membership in a currency contribution pins down the cell facts: the
column is present, the first-row cell is neither blank nor unparsable, and
the entry is its parsed value keyed by the currency. -/
theorem dailyEntry_mem (t : Table) (c : String) (p : String × ℚ)
    (hp : p ∈ dailyEntry t c) :
    p.1 = c ∧ c ∈ t.cols ∧ cellIsBlank (firstRowCell t c) = false ∧
      pyFloat (firstRowCell t c) = some p.2 := by
  unfold dailyEntry at hp
  split at hp
  · rename_i hcol
    split at hp
    · simp at hp
    · rename_i hnb
      split at hp
      · rename_i q hq
        rw [List.mem_singleton] at hp
        subst hp
        exact ⟨rfl, hcol, by simpa using hnb, hq⟩
      · simp at hp
  · simp at hp

/-- Inversion of a successful daily parse: the returned map is the loop
result and it is nonempty. -/
theorem parse_daily_ok (t : Table) (m : List (String × ℚ))
    (h : parse_daily_rates t = Except.ok m) :
    m = dailyRatesOf t ∧ dailyRatesOf t ≠ [] := by
  unfold parse_daily_rates at h
  split at h
  · exact absurd h (by simp)
  · split at h
    · exact absurd h (by simp)
    · rename_i hne
      injection h with h
      exact ⟨h.symm, hne⟩

/-- Inversion of a successful historical parse: the returned sequence is
the loop result and it is nonempty. -/
theorem parse_historical_ok (t : Table) (obs : List Obs)
    (h : parse_historical_rates t = Except.ok obs) :
    obs = histData t ∧ histData t ≠ [] := by
  unfold parse_historical_rates at h
  split at h
  · exact absurd h (by simp)
  · split at h
    · split at h
      · exact absurd h (by simp)
      · rename_i hne
        injection h with h
        exact ⟨h.symm, hne⟩
    · exact absurd h (by simp)

/-! ## Lemmas about the mean aggregation -/

/-- A currency is a key of the mean map exactly when it has at least one
recorded rate. -/
theorem mem_meanKeys (obs : List Obs) (c : String) :
    c ∈ meanKeys obs ↔ ratesFor obs c ≠ [] := by
  unfold meanKeys ratesFor
  rw [List.mem_dedup, List.mem_map]
  constructor
  · rintro ⟨o, ho, rfl⟩ hnil
    rw [List.map_eq_nil_iff, List.filter_eq_nil_iff] at hnil
    exact hnil o ho (by simp)
  · intro h
    have hf : obs.filter (fun o => o.currency == c) ≠ [] := by
      intro hnil
      apply h
      rw [hnil]
      rfl
    obtain ⟨o, ho⟩ := List.exists_mem_of_ne_nil _ hf
    have hmem := List.mem_filter.mp ho
    exact ⟨o, hmem.1, by simpa using hmem.2⟩

/-! ## Lemmas about report rendering -/

/-- The four-decimal format never renders the literal N/A: its output
always contains a decimal point. -/
theorem fmt4_ne_na (q : ℚ) : fmt4 q ≠ "N/A" := by
  intro h
  have hd : fmt4Core (roundHalfEvenScaled (q.num * 10000) q.den) = ['N', '/', 'A'] :=
    congrArg String.data h
  have hmem : '.' ∈ fmt4Core (roundHalfEvenScaled (q.num * 10000) q.den) := by
    unfold fmt4Core
    exact List.mem_append_right _ (List.mem_cons_self _ _)
  rw [hd] at hmem
  simp at hmem

/-- A value cell reads N/A exactly when the lookup missed or hit the falsy
rate zero. -/
theorem renderCell_eq_na_iff (v : Option ℚ) :
    renderCell v = "N/A" ↔ v = none ∨ v = some 0 := by
  cases v with
  | none => simp [renderCell]
  | some q =>
    by_cases h : q = 0
    · simp [renderCell, h]
    · simp [renderCell, h, fmt4_ne_na q]

/-- A present nonzero rate renders as its four-decimal format. -/
theorem renderCell_some (q : ℚ) (h : q ≠ 0) : renderCell (some q) = fmt4 q := by
  simp [renderCell, h]

/-- The report rows carry exactly the configured currency codes, in
configured order. -/
theorem create_map_code (d m : List (String × ℚ)) :
    (create_html_table d m).map ReportRow.code = TARGET_CURRENCIES := by
  unfold create_html_table
  rw [List.map_map]
  have h : (ReportRow.code ∘ mkRow d m) = fun c => c := funext (fun c => rfl)
  rw [h]
  exact List.map_id TARGET_CURRENCIES

/-! ## Claims -/

/-- C1: Non-positive rate asymmetry.  A cell of a target currency that
parses to a number at most zero is still inserted into the daily rate map
by the daily extractor (line 69 only prints a warning before the insert at
line 71), whereas in the historical path such a cell produces no
observation (line 174 skips it) and therefore contributes nothing to any
mean: every historical observation has a strictly positive rate. -/
theorem nonpositive_asymmetry (t : Table) (c : String) (q : ℚ)
    (hc : c ∈ TARGET_CURRENCIES) (hcol : c ∈ t.cols) (hrows : t.rows ≠ [])
    (hb : cellIsBlank (firstRowCell t c) = false)
    (hp : pyFloat (firstRowCell t c) = some q) (hq : q ≤ 0) :
    (parse_daily_rates t = Except.ok (dailyRatesOf t) ∧
      lookupRate (dailyRatesOf t) c = some q) ∧
    (∀ (u : Table) (c2 : String) (row : List Cell) (p : ℚ),
      pyFloat (getCell u row c2) = some p → p ≤ 0 → rowObs u c2 row = none) ∧
    (∀ (u : Table), ∀ o ∈ histData u, 0 < o.rate) := by
  have hlk : lookupRate (dailyRatesOf t) c = some q := by
    rw [dailyRatesOf_flatMap,
      lookupRate_flatMap (dailyEntry t) (fun x => dailyEntry_key t x)
        TARGET_CURRENCIES (by decide) c hc,
      dailyEntry_eq_single t c q hcol hb hp]
    simp [lookupRate]
  have hne : dailyRatesOf t ≠ [] := by
    intro h0
    rw [h0] at hlk
    exact absurd hlk (by simp [lookupRate])
  have hok : parse_daily_rates t = Except.ok (dailyRatesOf t) := by
    unfold parse_daily_rates
    rw [if_neg (fun h0 => hrows (List.length_eq_zero.mp h0)), if_neg hne]
  exact ⟨⟨hok, hlk⟩,
    fun u c2 row p hp2 hq2 => rowObs_nonpos u c2 row p hp2 hq2,
    fun u => histData_pos u⟩

/-- Witness for C1 at a concrete table: the SEK first-row cell parses to
the non-positive value -2 and the daily extractor still maps SEK to -2. -/
theorem nonpositive_asymmetry_witness :
    lookupRate (dailyRatesOf histNeg) "SEK" = some (-2) :=
  ((nonpositive_asymmetry histNeg "SEK" (-2) (by decide) (by decide)
    (by decide) (by decide) rfl (by decide)).1).2

/-- C2 counterexample: the claim says a daily rate is never zero, but on a
table whose USD cell is exactly 0 the daily extractor succeeds and the
returned map carries the rate 0 for USD (the non-positive check at line 69
only warns). -/
theorem daily_zero_rate_kept :
    parse_daily_rates dtZero = Except.ok [("USD", 0)] ∧
    lookupRate (dailyRatesOf dtZero) "USD" = some 0 :=
  ⟨rfl, rfl⟩

/-- C2 (amended): every observation rate in a successful historical
extraction is strictly positive, and every value of a successful daily
extraction is the successful float conversion of the present, non-blank
first-row cell of its currency — hence numeric, though possibly
non-positive and possibly zero. -/
theorem rate_invariant_amended (t : Table) (obs : List Obs)
    (m : List (String × ℚ)) :
    (parse_historical_rates t = Except.ok obs → ∀ o ∈ obs, 0 < o.rate) ∧
    (parse_daily_rates t = Except.ok m → ∀ p ∈ m,
      p.1 ∈ TARGET_CURRENCIES ∧ p.1 ∈ t.cols ∧
      cellIsBlank (firstRowCell t p.1) = false ∧
      pyFloat (firstRowCell t p.1) = some p.2) := by
  constructor
  · intro h o ho
    have hobs := (parse_historical_ok t obs h).1
    exact histData_pos t o (hobs ▸ ho)
  · intro h p hp
    have hm := (parse_daily_ok t m h).1
    rw [hm, dailyRatesOf_flatMap] at hp
    obtain ⟨c, hcT, hpc⟩ := List.mem_flatMap.mp hp
    obtain ⟨h1, h2, h3, h4⟩ := dailyEntry_mem t c p hpc
    refine ⟨?_, ?_, ?_, ?_⟩ <;> rw [h1] <;> assumption

/-- Witness for C2 (amended) at a concrete table: the surviving SEK
observation of the mixed-sign historical table has a positive rate. -/
theorem rate_invariant_amended_witness :
    0 < (Obs.mk "2024-01-02" "SEK" 2).rate :=
  (rate_invariant_amended histNeg (histData histNeg) []).1 rfl _ (by decide)

/-- C3: Mean correctness.  The aggregator succeeds on any nonempty
observation sequence; a currency with at least one observation maps to the
sum of its rates divided by their count (exact rational arithmetic, which
implies the 1e-9 relative tolerance of the claim); a currency with zero
observations is not a key of the mean map. -/
theorem mean_correct (obs : List Obs) (c : String) (h : obs ≠ []) :
    calculate_mean_rates obs = Except.ok (meanMap obs) ∧
    (ratesFor obs c ≠ [] →
      lookupRate (meanMap obs) c =
        some ((ratesFor obs c).sum / ((ratesFor obs c).length : ℚ))) ∧
    (ratesFor obs c = [] → lookupRate (meanMap obs) c = none) := by
  refine ⟨?_, ?_, ?_⟩
  · unfold calculate_mean_rates
    rw [if_neg h]
  · intro hne
    unfold meanMap
    rw [lookupRate_graph (meanVal obs) ((mem_meanKeys obs c).mpr hne)]
    rfl
  · intro hnil
    unfold meanMap
    exact lookupRate_graph_none (meanVal obs)
      (fun hmem => ((mem_meanKeys obs c).mp hmem) hnil)

/-- Witness for C3 at a concrete observation sequence with two USD
observations. -/
theorem mean_correct_witness :
    lookupRate (meanMap (histData histPair)) "USD" =
      some ((ratesFor (histData histPair) "USD").sum /
        ((ratesFor (histData histPair) "USD").length : ℚ)) :=
  (mean_correct (histData histPair) "USD" (by decide)).2.1 (by decide)

/-- C4: a non-empty parseable historical table without the Date column
makes the historical extractor fail with the malformed-input error of
line 143, whatever currency columns are present. -/
theorem hist_missing_date (t : Table) (h1 : t.rows ≠ []) (h2 : "Date" ∉ t.cols) :
    parse_historical_rates t =
      Except.error (EtlError.malformedInput "CSV file missing required Date column") := by
  unfold parse_historical_rates
  rw [if_neg (fun h0 => h1 (List.length_eq_zero.mp h0)), if_neg h2]

/-- Witness for C4: a one-row table with only a USD column. -/
theorem hist_missing_date_witness :
    parse_historical_rates noDate =
      Except.error (EtlError.malformedInput "CSV file missing required Date column") :=
  hist_missing_date noDate (by decide) (by decide)

/-- C5: Daily extractor error boundary.  The daily extractor fails with
malformed input exactly when the table has zero data rows; it fails with
no-usable-data exactly when the table has rows but the built map is empty;
and on a table with a data row, a missing single target column, and a
nonempty map it succeeds with a partial map from which the missing
currency is absent. -/
theorem daily_error_boundary (t : Table) (c : String) :
    ((∃ s, parse_daily_rates t = Except.error (EtlError.malformedInput s)) ↔
      t.rows = []) ∧
    ((∃ s, parse_daily_rates t = Except.error (EtlError.noUsableData s)) ↔
      (t.rows ≠ [] ∧ dailyRatesOf t = [])) ∧
    (t.rows ≠ [] → c ∈ TARGET_CURRENCIES → c ∉ t.cols → dailyRatesOf t ≠ [] →
      parse_daily_rates t = Except.ok (dailyRatesOf t) ∧
      lookupRate (dailyRatesOf t) c = none) := by
  refine ⟨?_, ?_, ?_⟩
  · constructor
    · rintro ⟨s, hs⟩
      unfold parse_daily_rates at hs
      split at hs
      · rename_i h0
        exact List.length_eq_zero.mp h0
      · split at hs
        · exact absurd hs (by simp)
        · exact absurd hs (by simp)
    · intro h0
      refine ⟨"CSV file is empty - no data rows found", ?_⟩
      unfold parse_daily_rates
      rw [if_pos (by rw [h0]; rfl)]
  · constructor
    · rintro ⟨s, hs⟩
      unfold parse_daily_rates at hs
      split at hs
      · exact absurd hs (by simp)
      · split at hs
        · rename_i h1 h2
          exact ⟨fun hr => h1 (by rw [hr]; rfl), h2⟩
        · exact absurd hs (by simp)
    · rintro ⟨h1, h2⟩
      refine ⟨"No valid rates found for any target currencies", ?_⟩
      unfold parse_daily_rates
      rw [if_neg (fun h0 => h1 (List.length_eq_zero.mp h0)), if_pos h2]
  · intro h1 hcT hcol hne
    constructor
    · unfold parse_daily_rates
      rw [if_neg (fun h0 => h1 (List.length_eq_zero.mp h0)), if_neg hne]
    · rw [dailyRatesOf_flatMap,
        lookupRate_flatMap (dailyEntry t) (fun x => dailyEntry_key t x)
          TARGET_CURRENCIES (by decide) c hcT,
        dailyEntry_eq_nil t c (Or.inl hcol)]
      rfl

/-- Witness for C5 at a concrete table with one data row and no SEK
column: the parse succeeds with a partial map missing SEK. -/
theorem daily_error_boundary_witness :
    parse_daily_rates partialDaily = Except.ok (dailyRatesOf partialDaily) ∧
    lookupRate (dailyRatesOf partialDaily) "SEK" = none :=
  (daily_error_boundary partialDaily "SEK").2.2 (by decide) (by decide)
    (by decide) (by decide)

/-- C6: Daily skip behavior.  A target currency whose first-row cell is
null-or-blank (missing, empty, or the N/A sentinel) or fails the float
conversion is entirely absent from the daily map; and on the Example-2
table with row 1.0850, N/A, 0.8600, abc the extractor returns exactly
USD 1.0850 and GBP 0.8600 with SEK and JPY absent. -/
theorem daily_skip_invalid (t : Table) (c : String) (hc : c ∈ TARGET_CURRENCIES)
    (hbad : cellIsBlank (firstRowCell t c) = true ∨
      pyFloat (firstRowCell t c) = none) :
    lookupRate (dailyRatesOf t) c = none ∧
    parse_daily_rates exampleDaily =
      Except.ok [("USD", 217 / 200), ("GBP", 43 / 50)] := by
  constructor
  · rw [dailyRatesOf_flatMap,
      lookupRate_flatMap (dailyEntry t) (fun x => dailyEntry_key t x)
        TARGET_CURRENCIES (by decide) c hc,
      dailyEntry_eq_nil t c (Or.inr hbad)]
    rfl
  · rfl

/-- Witness for C6 at the Example-2 table itself: SEK (the N/A cell) is
absent from the daily map. -/
theorem daily_skip_invalid_witness :
    lookupRate (dailyRatesOf exampleDaily) "SEK" = none ∧
    parse_daily_rates exampleDaily =
      Except.ok [("USD", 217 / 200), ("GBP", 43 / 50)] :=
  daily_skip_invalid exampleDaily "SEK" (by decide) (Or.inl (by decide))

/-- C7: Historical observation order.  A successful historical extraction
is the concatenation, over the configured target currencies in configured
order, of the per-currency observation segments; each segment carries only
its own currency and consists of the usable rows of the input in input
row order. -/
theorem hist_obs_order (t : Table) (obs : List Obs)
    (h : parse_historical_rates t = Except.ok obs) :
    obs = TARGET_CURRENCIES.flatMap (histObsFor t) ∧
    (∀ c, ∀ o ∈ histObsFor t c, o.currency = c) ∧
    (∀ c, c ∈ t.cols → histObsFor t c = t.rows.filterMap (rowObs t c)) := by
  refine ⟨?_, fun c => histObsFor_currency t c, fun c hcol => ?_⟩
  · rw [(parse_historical_ok t obs h).1, histData_flatMap]
  · unfold histObsFor
    rw [if_pos hcol]

/-- Witness for C7 at a concrete two-row table. -/
theorem hist_obs_order_witness :
    histData histPair = TARGET_CURRENCIES.flatMap (histObsFor histPair) :=
  (hist_obs_order histPair (histData histPair) rfl).1

/-- C8: Unreachable defensive check.  On the output of any successful
historical extraction the mean aggregator never raises: its
invalid-input branch is unreachable because a successful extraction is
nonempty (and the typed observation record always carries the currency
and rate fields the second defensive check looks for). -/
theorem mean_agg_total (t : Table) (obs : List Obs)
    (h : parse_historical_rates t = Except.ok obs) :
    calculate_mean_rates obs = Except.ok (meanMap obs) := by
  obtain ⟨hobs, hne⟩ := parse_historical_ok t obs h
  have hne2 : obs ≠ [] := by
    rw [hobs]
    exact hne
  unfold calculate_mean_rates
  rw [if_neg hne2]

/-- Witness for C8 at a concrete two-row table. -/
theorem mean_agg_total_witness :
    calculate_mean_rates (histData histPair) =
      Except.ok (meanMap (histData histPair)) :=
  mean_agg_total histPair (histData histPair) rfl

/-- C9 counterexample: the claim says a cell reads N/A if and only if the
currency is absent from the corresponding map, but with USD present in
the daily map at rate exactly 0 the rendered rate cell is still N/A — the
truthiness test of line 292 treats the float 0.0 like None. -/
theorem report_zero_rate_na :
    lookupRate [("USD", (0 : ℚ))] "USD" = some 0 ∧
    create_html_table [("USD", (0 : ℚ))] [] =
      [⟨"USD", "N/A", "N/A"⟩, ⟨"SEK", "N/A", "N/A"⟩,
       ⟨"GBP", "N/A", "N/A"⟩, ⟨"JPY", "N/A", "N/A"⟩] :=
  ⟨rfl, rfl⟩

/-- C9 (amended): rows appear in the fixed configured currency order; a
value cell is the rate formatted to four decimal places whenever the
currency is present in the corresponding map with a nonzero rate, and it
is the literal N/A if and only if the currency is absent from that map or
its rate is exactly zero. -/
theorem report_cells_amended (d m : List (String × ℚ)) :
    (create_html_table d m).map ReportRow.code = TARGET_CURRENCIES ∧
    ∀ r ∈ create_html_table d m,
      (r.rate = "N/A" ↔
        (lookupRate d r.code = none ∨ lookupRate d r.code = some 0)) ∧
      (∀ q, lookupRate d r.code = some q → q ≠ 0 → r.rate = fmt4 q) ∧
      (r.histRate = "N/A" ↔
        (lookupRate m r.code = none ∨ lookupRate m r.code = some 0)) ∧
      (∀ q, lookupRate m r.code = some q → q ≠ 0 → r.histRate = fmt4 q) := by
  refine ⟨create_map_code d m, ?_⟩
  intro r hr
  obtain ⟨c, _, rfl⟩ := List.mem_map.mp hr
  refine ⟨renderCell_eq_na_iff (lookupRate d c), ?_,
    renderCell_eq_na_iff (lookupRate m c), ?_⟩
  · intro q hq hq0
    show renderCell (lookupRate d c) = fmt4 q
    rw [show lookupRate d (mkRow d m c).code = lookupRate d c from rfl] at hq
    rw [hq]
    exact renderCell_some q hq0
  · intro q hq hq0
    show renderCell (lookupRate m c) = fmt4 q
    rw [show lookupRate m (mkRow d m c).code = lookupRate m c from rfl] at hq
    rw [hq]
    exact renderCell_some q hq0

/-- Witness for C9 (amended): with USD present at the nonzero rate 3 the
rendered rate cell is the four-decimal format of 3. -/
theorem report_cells_amended_witness :
    (mkRow [("USD", (3 : ℚ))] [] "USD").rate = fmt4 3 :=
  ((report_cells_amended [("USD", (3 : ℚ))] []).2
    (mkRow [("USD", (3 : ℚ))] [] "USD") (by decide)).2.1 3 (by decide) (by decide)

/-- C10: the report table always has exactly one row per configured target
currency, in configured order — len(TARGET_CURRENCIES) rows even for empty
maps — and a currency absent from both maps still yields its row, with the
literal N/A in both value cells. -/
theorem report_row_per_currency (d m : List (String × ℚ)) :
    (create_html_table d m).length = TARGET_CURRENCIES.length ∧
    (create_html_table d m).map ReportRow.code = TARGET_CURRENCIES ∧
    ∀ r ∈ create_html_table d m,
      lookupRate d r.code = none → lookupRate m r.code = none →
      r.rate = "N/A" ∧ r.histRate = "N/A" := by
  refine ⟨?_, create_map_code d m, ?_⟩
  · unfold create_html_table
    exact List.length_map _ _
  · intro r hr hd hm
    obtain ⟨c, _, rfl⟩ := List.mem_map.mp hr
    constructor
    · show renderCell (lookupRate d c) = "N/A"
      rw [show lookupRate d c = none from hd]
      rfl
    · show renderCell (lookupRate m c) = "N/A"
      rw [show lookupRate m c = none from hm]
      rfl

/-- Witness for C10 on two empty maps: the USD row exists and reads N/A in
both value cells. -/
theorem report_row_per_currency_witness :
    (mkRow [] [] "USD").rate = "N/A" ∧ (mkRow [] [] "USD").histRate = "N/A" :=
  (report_row_per_currency [] []).2.2 (mkRow [] [] "USD") (by decide) rfl rfl
